import Mathlib

/-!
Verification of the stream-reconstruction and payload-normalization core of
`openai_forward/content/lflogger.py`.

The Python code works on decoded JSON values (`orjson.loads`) and raises
Python exceptions (`JSONDecodeError`, `KeyError`, `IndexError`, `TypeError`,
`AttributeError`).  We embed JSON values as the inductive type `JsonV` and
fallible dictionary/list accesses as `Except PyErr` computations whose error
discipline mirrors Python's (`d[k]` raises `KeyError` on a dict without the
key and `TypeError` on a non-dict, `xs[i]` raises `IndexError` out of range,
`d.get(k)` returns `None` when absent and raises `AttributeError` on a
non-dict, `s += x` raises `TypeError` when `x` is not a string, and an
unhashable key raises `TypeError`).

The framing primitives are external collaborators of this core and are
modelled as the already-split, already-decoded view of the input:
`parse_sse_buffer` (from `content/helper.py`) yields the list of text lines,
and `orjson.loads` on each line either yields a JSON document or fails.  A
streamed line is therefore a flag (did the line start with the `"data: "`
marker) together with the decode result of its remainder, and a response
buffer is either a streaming buffer (first line's decode result plus the
remaining lines) or a single document's decode result.
-/

/-- JSON values as produced by `orjson.loads`: null, booleans, numbers
(modelled as integers; no claim involves fractional values), strings, arrays
and objects (association lists with string keys, unique in practice). -/
inductive JsonV where
  | null : JsonV
  | bool : Bool → JsonV
  | num : Int → JsonV
  | str : String → JsonV
  | arr : List JsonV → JsonV
  | obj : List (String × JsonV) → JsonV

/-- Python exceptions that the source can raise on these access paths. -/
inductive PyErr where
  | jsonDecode : PyErr
  | keyError : PyErr
  | indexError : PyErr
  | typeError : PyErr
  | attributeError : PyErr

/-- Python `d[k]` on a JSON value: key lookup on a dict (`KeyError` when the
key is absent), `TypeError` on any non-dict value. -/
def getKey (j : JsonV) (k : String) : Except PyErr JsonV :=
  match j with
  | .obj kvs =>
    match List.lookup k kvs with
    | some v => Except.ok v
    | none => Except.error .keyError
  | _ => Except.error .typeError

/-- Python `x[i]` with an integer index: list indexing (`IndexError` out of
range), single-character extraction on strings, `KeyError` on dicts (whose
keys here are strings, so an integer key is never present), `TypeError`
otherwise. -/
def getIdx (j : JsonV) (i : Nat) : Except PyErr JsonV :=
  match j with
  | .arr xs =>
    match xs[i]? with
    | some v => Except.ok v
    | none => Except.error .indexError
  | .str s =>
    match s.data[i]? with
    | some c => Except.ok (.str (String.mk [c]))
    | none => Except.error .indexError
  | .obj _ => Except.error .keyError
  | _ => Except.error .typeError

/-- Python `d.get(k)`: `None` when the key is absent, `AttributeError` when
the receiver is not a dict. -/
def dictGet (j : JsonV) (k : String) : Except PyErr JsonV :=
  match j with
  | .obj kvs => Except.ok ((List.lookup k kvs).getD .null)
  | _ => Except.error .attributeError

/-- Python truthiness of a JSON value, as used by `if tool_calls:` and
`if usage:` in the source. -/
def truthy : JsonV → Bool
  | .null => false
  | .bool b => b
  | .num n => n != 0
  | .str s => s != ""
  | .arr xs => !xs.isEmpty
  | .obj kvs => !kvs.isEmpty

/-- Python `finish_reason == "stop"`: only a string equal to `"stop"`
compares equal. -/
def isStop : JsonV → Bool
  | .str s => s == "stop"
  | _ => false

/-- Whether a JSON value is hashable in Python, hence usable as a dict key
(`target_info[role] = ...` raises `TypeError` for a list or dict role). -/
def hashableKey : JsonV → Bool
  | .arr _ => false
  | .obj _ => false
  | _ => true

/-- Assignment `d[k] = v` on an association list with unique keys: replaces
the binding of `k` in place, or appends it at the end (Python dict insertion
order). -/
def updateAssoc : List (String × JsonV) → String → JsonV → List (String × JsonV)
  | [], k, v => [(k, v)]
  | (k', v') :: rest, k, v =>
    if k' = k then (k, v) :: rest else (k', v') :: updateAssoc rest k v

/-- Python `d[k] = v`: item assignment succeeds only on dicts, `TypeError`
otherwise. -/
def setObjKey (j : JsonV) (k : String) (v : JsonV) : Except PyErr JsonV :=
  match j with
  | .obj kvs => Except.ok (.obj (updateAssoc kvs k v))
  | _ => Except.error .typeError

/-- Removal of a key from an association list, as performed by
`payload.pop("caching", ...)` on the residual body. -/
def removeKey : List (String × JsonV) → String → List (String × JsonV)
  | [], _ => []
  | (k', v) :: rest, k =>
    if k' = k then removeKey rest k else (k', v) :: removeKey rest k

/-- Python `d.get(k, default)` on an association list. -/
def getD (kvs : List (String × JsonV)) (k : String) (d : JsonV) : JsonV :=
  (List.lookup k kvs).getD d

/-- One line of a streamed response, as returned by the external framing
primitive `parse_sse_buffer`: whether the line starts with the `"data: "`
marker, and the `orjson.loads` decode result of the line with the marker
stripped (`none` models `JSONDecodeError`; for a line without the marker the
decode result is irrelevant because the source skips the line). -/
structure SSELine where
  hasMarker : Bool
  json : Option JsonV

/-- A fully received response buffer, after shape detection and framing.
`stream first rest` models a buffer that starts with the `"data: "` marker
(`first` is the decode result of the first line past the marker, `rest` the
remaining lines from `parse_sse_buffer`); `single doc` models any other
buffer (`doc` is the decode result of the whole buffer). -/
inductive RespBuffer where
  | stream : Option JsonV → List SSELine → RespBuffer
  | single : Option JsonV → RespBuffer

/-- The `target_info` dictionary built by `parse_bytearray`, modelled as a
record (the spec's `ResponseInfo`).  `roleVal` is the value stored under the
dynamic key `target_info[role]` (the role is expected to be the constant
`"assistant"`); `usage` is `none` when the `"usage"` key was never set. -/
structure ResponseInfo where
  created : JsonV
  id : JsonV
  model : JsonV
  role : JsonV
  roleVal : JsonV
  is_tool_calls : Bool
  usage : Option JsonV

/-- The `info` dictionary built by `parse_payload`, modelled as a record
(the spec's `RequestInfo`).  `ip`, `uid` and `datetime` are the ambient
request metadata, resolved by external helpers and passed in here. -/
structure RequestInfo where
  messages : JsonV
  model : JsonV
  stream : JsonV
  max_tokens : JsonV
  response_format : JsonV
  n : JsonV
  temperature : JsonV
  top_p : JsonV
  logit_bias : JsonV
  frequency_penalty : JsonV
  presence_penalty : JsonV
  seed : JsonV
  stop : JsonV
  user : JsonV
  tools : JsonV
  tool_choice : JsonV
  ip : String
  uid : String
  caching : JsonV
  datetime : String

/-- Body of the `try` block of `LangfuseLogger._parse_one_line_content`
(lflogger.py lines 151-165): decode the line and extract the delta content
(and, on a `"stop"` finish reason, the usage) for the `"content"` key, or
the first tool call's incremental arguments for the `"tool_calls"` key; an
unknown key is logged and contributes `("", None)`.  Errors are the Python
exceptions the corresponding accesses raise; the caller catches
`JSONDecodeError` and `KeyError` only. -/
def innerContent (dec : Option JsonV) (key : String) : Except PyErr (JsonV × JsonV) :=
  match dec with
  | none => Except.error .jsonDecode
  | some line_dict =>
    if key = "content" then
      match getKey line_dict "choices" with
      | .error e => Except.error e
      | .ok choices =>
      match getIdx choices 0 with
      | .error e => Except.error e
      | .ok c0 =>
      match getKey c0 "delta" with
      | .error e => Except.error e
      | .ok delta =>
      match getKey delta "content" with
      | .error e => Except.error e
      | .ok delta_content =>
      match getKey c0 "finish_reason" with
      | .error e => Except.error e
      | .ok finish_reason =>
        if isStop finish_reason then
          match getKey line_dict "usage" with
          | .error e => Except.error e
          | .ok usage => Except.ok (delta_content, usage)
        else Except.ok (delta_content, .null)
    else if key = "tool_calls" then
      match getKey line_dict "choices" with
      | .error e => Except.error e
      | .ok choices =>
      match getIdx choices 0 with
      | .error e => Except.error e
      | .ok c0 =>
      match getKey c0 "delta" with
      | .error e => Except.error e
      | .ok delta =>
      match getKey delta "tool_calls" with
      | .error e => Except.error e
      | .ok tool_calls =>
      match getIdx tool_calls 0 with
      | .error e => Except.error e
      | .ok t0 =>
      match getKey t0 "function" with
      | .error e => Except.error e
      | .ok fn =>
      match getKey fn "arguments" with
      | .error e => Except.error e
      | .ok args => Except.ok (args, .null)
    else Except.ok (.str "", .null)

/-- `LangfuseLogger._parse_one_line_content` (lflogger.py lines 139-169):
the `try` body with `except JSONDecodeError` and `except KeyError` both
returning `("", None)`; any other exception propagates. -/
def parse_one_line_content (dec : Option JsonV) (key : String) :
    Except PyErr (JsonV × JsonV) :=
  match innerContent dec key with
  | .ok r => Except.ok r
  | .error .jsonDecode => Except.ok (.str "", .null)
  | .error .keyError => Except.ok (.str "", .null)
  | .error e => Except.error e

/-- The `for line in txt_lines[1:]` loop of `parse_bytearray` (lflogger.py
lines 122-131): lines without the `"data: "` marker are skipped; for the
others the parsed delta is appended to the accumulator (`TypeError` when it
is not a string) and a truthy usage overwrites the recorded usage. -/
def streamLoop : List SSELine → String → String → Option JsonV →
    Except PyErr (String × Option JsonV)
  | [], _, acc, usage => Except.ok (acc, usage)
  | l :: ls, key, acc, usage =>
    if l.hasMarker then
      match parse_one_line_content l.json key with
      | .error e => Except.error e
      | .ok (dc, us) =>
        match dc with
        | .str s => streamLoop ls key (acc ++ s) (if truthy us then some us else usage)
        | _ => Except.error .typeError
    else streamLoop ls key acc usage

/-- The finalization statement `tool_calls[0]['function']['arguments'] =
stream_content` (lflogger.py line 133), with Python's error behaviour on
each access (`IndexError` on an empty list, `KeyError` on a dict receiver
or a missing `'function'` key, `TypeError` otherwise). -/
def assignToolCallArguments (tool_calls : JsonV) (s : String) : Except PyErr JsonV :=
  match tool_calls with
  | .arr [] => Except.error .indexError
  | .arr (t0 :: rest) =>
    match getKey t0 "function" with
    | .error e => Except.error e
    | .ok fn =>
      match setObjKey fn "arguments" (.str s) with
      | .error e => Except.error e
      | .ok fn2 =>
        match setObjKey t0 "function" fn2 with
        | .error e => Except.error e
        | .ok t02 => Except.ok (.arr (t02 :: rest))
  | .obj _ => Except.error .keyError
  | .str s' => if s' = "" then Except.error .indexError else Except.error .typeError
  | _ => Except.error .typeError

/-- Common tail of `parse_bytearray` (lflogger.py lines 93-137) after the
header frame has been decoded and `msg` extracted: record the header fields,
pick the discriminator from the truthiness of `msg.get("tool_calls")`,
return directly for a non-streaming buffer, and otherwise run the
accumulation loop and fold the accumulator into the populated field. -/
def finishParse (first_dict msg : JsonV) (stream : Bool) (rest : List SSELine) :
    Except PyErr ResponseInfo :=
  match getKey first_dict "created" with
  | .error e => Except.error e
  | .ok created =>
  match getKey first_dict "id" with
  | .error e => Except.error e
  | .ok idv =>
  match getKey first_dict "model" with
  | .error e => Except.error e
  | .ok modelv =>
  match getKey msg "role" with
  | .error e => Except.error e
  | .ok role =>
  match dictGet msg "content" with
  | .error e => Except.error e
  | .ok content =>
  match dictGet msg "tool_calls" with
  | .error e => Except.error e
  | .ok tool_calls =>
  match hashableKey role with
  | false => Except.error .typeError
  | true =>
    match stream with
    | false =>
      Except.ok ⟨created, idv, modelv, role,
        if truthy tool_calls then tool_calls else content, truthy tool_calls, none⟩
    | true =>
      match streamLoop rest (if truthy tool_calls then "tool_calls" else "content") "" none with
      | .error e => Except.error e
      | .ok (stream_content, usage) =>
        if truthy tool_calls then
          match assignToolCallArguments tool_calls stream_content with
          | .error e => Except.error e
          | .ok tc2 => Except.ok ⟨created, idv, modelv, role, tc2, true, usage⟩
        else
          Except.ok ⟨created, idv, modelv, role, .str stream_content, false, usage⟩

/-- `LangfuseLogger.parse_bytearray` (lflogger.py lines 67-137) over the
framed view of the buffer: a streaming buffer decodes its first line and
reads `choices[0].delta` as the header message; a non-streaming buffer
decodes the whole document and reads `choices[0].message`. -/
def parse_bytearray (buf : RespBuffer) : Except PyErr ResponseInfo :=
  match buf with
  | .stream dec rest =>
    match dec with
    | none => Except.error .jsonDecode
    | some first_dict =>
      match getKey first_dict "choices" with
      | .error e => Except.error e
      | .ok choices =>
      match getIdx choices 0 with
      | .error e => Except.error e
      | .ok c0 =>
      match getKey c0 "delta" with
      | .error e => Except.error e
      | .ok msg => finishParse first_dict msg true rest
  | .single dec =>
    match dec with
    | none => Except.error .jsonDecode
    | some first_dict =>
      match getKey first_dict "choices" with
      | .error e => Except.error e
      | .ok choices =>
      match getIdx choices 0 with
      | .error e => Except.error e
      | .ok c0 =>
      match getKey c0 "message" with
      | .error e => Except.error e
      | .ok msg => finishParse first_dict msg false []

/-- `LangfuseLogger.parse_payload` (lflogger.py lines 18-65) on the decoded
request body.  The ambient metadata (client address as returned by
`get_client_ip`, the unique id, the formatted timestamp) and the configured
`DEFAULT_REQUEST_CACHING_VALUE` are parameters.  `messages` and `model` are
required (`KeyError` when absent); every other field is read with a default;
`caching` is additionally popped from the body, and the residual body is
returned alongside the record. -/
def parse_payload (payload : JsonV) (ipRaw : Option String) (uid datetime : String)
    (defaultCaching : JsonV) : Except PyErr (RequestInfo × JsonV) :=
  match payload with
  | .obj kvs =>
    match List.lookup "messages" kvs with
    | none => Except.error .keyError
    | some messages =>
    match List.lookup "model" kvs with
    | none => Except.error .keyError
    | some model =>
      Except.ok
        (⟨messages, model,
          getD kvs "stream" (.bool false),
          getD kvs "max_tokens" .null,
          getD kvs "response_format" .null,
          getD kvs "n" (.num 1),
          getD kvs "temperature" (.num 1),
          getD kvs "top_p" (.num 1),
          getD kvs "logit_bias" .null,
          getD kvs "frequency_penalty" (.num 0),
          getD kvs "presence_penalty" (.num 0),
          getD kvs "seed" .null,
          getD kvs "stop" .null,
          getD kvs "user" .null,
          getD kvs "tools" .null,
          getD kvs "tool_choice" .null,
          ipRaw.getD "", uid,
          getD kvs "caching" defaultCaching,
          datetime⟩,
         .obj (removeKey kvs "caching"))
  | _ => Except.error .typeError

/-- Concatenation of a list of strings in order. -/
def concatList : List String → String
  | [] => ""
  | s :: rest => s ++ concatList rest

/-- The text increment a single subsequent line contributes to the stream
accumulator: its parsed delta when the line carries the marker and parsing
returns a string, and the empty string otherwise. -/
def lineIncrement (key : String) (l : SSELine) : String :=
  if l.hasMarker then
    match parse_one_line_content l.json key with
    | .ok (.str s, _) => s
    | _ => ""
  else ""

/-- The usage value a single subsequent line records, if any: the parsed
usage when the line carries the marker and the parsed usage is truthy. -/
def frameUsage (key : String) (l : SSELine) : Option JsonV :=
  if l.hasMarker then
    match parse_one_line_content l.json key with
    | .ok (_, us) => if truthy us then some us else none
    | .error _ => none
  else none

/-- Folds the per-line usage updates over the lines in arrival order,
starting from `u`: each line recording a usage overwrites the previous one. -/
def lastUsageAux (key : String) : List SSELine → Option JsonV → Option JsonV
  | [], u => u
  | l :: ls, u =>
    lastUsageAux key ls
      (match frameUsage key l with
      | some v => some v
      | none => u)

/-- The usage recorded after all subsequent lines have been processed: the
last truthy usage reported by any line, if any. -/
def lastUsage (key : String) (lines : List SSELine) : Option JsonV :=
  lastUsageAux key lines none

/-- A line that the source treats as soft-malformed for the given
discriminator key: it carries the marker but its processing raises
`JSONDecodeError` (invalid JSON) or `KeyError` (a missing dictionary key on
the expected access path) — exactly the two exceptions
`_parse_one_line_content` catches. -/
def softMalformed (l : SSELine) (key : String) : Prop :=
  l.hasMarker = true ∧
    (innerContent l.json key = .error .jsonDecode ∨
      innerContent l.json key = .error .keyError)

/-- Header frame of a content-mode streaming response. -/
def fdC1 : JsonV :=
  .obj [("id", .str "chatcmpl-1"), ("created", .num 1), ("model", .str "m"),
    ("choices", .arr [.obj [("delta",
      .obj [("role", .str "assistant"), ("content", .str "")])]])]

/-- Content frame carrying the delta `"Hel"` and a null finish reason. -/
def lineC1a : SSELine :=
  ⟨true, some (.obj [("choices", .arr [.obj [("delta",
    .obj [("content", .str "Hel")]), ("finish_reason", .null)]])])⟩

/-- Marker line whose remainder is not valid JSON. -/
def lineC1bad : SSELine := ⟨true, none⟩

/-- Terminal content frame carrying the delta `"lo"`, the finish reason
`"stop"` and a usage object. -/
def lineC1b : SSELine :=
  ⟨true, some (.obj [("choices", .arr [.obj [("delta",
    .obj [("content", .str "lo")]), ("finish_reason", .str "stop")]]),
    ("usage", .obj [("total_tokens", .num 5)])])⟩

/-- Subsequent lines of the content-mode example buffer. -/
def restC1 : List SSELine := [lineC1a, lineC1bad, lineC1b]

/-- The reconstructed result of the content-mode example buffer. -/
def infoC1 : ResponseInfo :=
  ⟨.num 1, .str "chatcmpl-1", .str "m", .str "assistant", .str "Hello", false,
    some (.obj [("total_tokens", .num 5)])⟩

/-- A complete non-streaming response document without usage. -/
def docC2w : JsonV :=
  .obj [("id", .str "a"), ("created", .num 2), ("model", .str "m"),
    ("choices", .arr [.obj [("message",
      .obj [("role", .str "assistant"), ("content", .str "hi")])]])]

/-- A complete non-streaming response document that reports usage. -/
def docC2x : JsonV :=
  .obj [("id", .str "b"), ("created", .num 3), ("model", .str "m"),
    ("choices", .arr [.obj [("message",
      .obj [("role", .str "assistant"), ("content", .str "full")]),
      ("finish_reason", .str "stop")]]),
    ("usage", .obj [("total_tokens", .num 7)])]

/-- The reconstructed result of `docC2x`: its usage is dropped. -/
def infoC2x : ResponseInfo :=
  ⟨.num 3, .str "b", .str "m", .str "assistant", .str "full", false, none⟩

/-- Header frame of the buffer refuting claim C3. -/
def fdC3 : JsonV :=
  .obj [("id", .str "c"), ("created", .num 1), ("model", .str "m"),
    ("choices", .arr [.obj [("delta",
      .obj [("role", .str "assistant"), ("content", .str "")])]])]

/-- Decoded frame that reports `finish_reason == "stop"` but whose usage
value is `null`, hence falsy. -/
def jC3 : JsonV :=
  .obj [("choices", .arr [.obj [("delta",
    .obj [("content", .str "x")]), ("finish_reason", .str "stop")]]),
    ("usage", JsonV.null)]

/-- Marker line around `jC3`. -/
def lineC3 : SSELine := ⟨true, some jC3⟩

/-- The reconstructed result of the C3 counterexample buffer: no usage,
although a frame reported the terminal finish reason. -/
def infoC3 : ResponseInfo :=
  ⟨.num 1, .str "c", .str "m", .str "assistant", .str "x", false, none⟩

/-- Terminal content frame with a truthy usage, for the C3 witness. -/
def lineC3w : SSELine :=
  ⟨true, some (.obj [("choices", .arr [.obj [("delta",
    .obj [("content", .str "ok")]), ("finish_reason", .str "stop")]]),
    ("usage", .obj [("total_tokens", .num 9)])])⟩

/-- Reconstructed result of the C3 witness buffer. -/
def infoC3w : ResponseInfo :=
  ⟨.num 1, .str "c", .str "m", .str "assistant", .str "ok", false,
    some (.obj [("total_tokens", .num 9)])⟩

/-- A marker line that decodes to valid JSON whose `choices` array is empty:
`choices[0]` raises `IndexError`, which the source does not catch. -/
def lineC4 : SSELine :=
  ⟨true, some (.obj [("choices", .arr [])])⟩

/-- Header frame preceding `lineC4` in the C4 counterexample buffer. -/
def fdC4 : JsonV :=
  .obj [("id", .str "d"), ("created", .num 1), ("model", .str "m"),
    ("choices", .arr [.obj [("delta",
      .obj [("role", .str "assistant"), ("content", .str "")])]])]

/-- A well-formed content frame used around the skipped line in the C4
witness. -/
def lineC4good : SSELine :=
  ⟨true, some (.obj [("choices", .arr [.obj [("delta",
    .obj [("content", .str "ok")]), ("finish_reason", .null)]])])⟩

/-- Header frame of a tool-call streaming response with a single tool call. -/
def fdC6 : JsonV :=
  .obj [("id", .str "t"), ("created", .num 1), ("model", .str "m"),
    ("choices", .arr [.obj [("delta",
      .obj [("role", .str "assistant"),
        ("tool_calls", .arr [.obj [("index", .num 0), ("id", .str "call1"),
          ("type", .str "function"),
          ("function", .obj [("name", .str "f"), ("arguments", .str "")])]])])]])]

/-- Tool-call frame contributing the argument fragment `"ab"`. -/
def lineC6a : SSELine :=
  ⟨true, some (.obj [("choices", .arr [.obj [("delta",
    .obj [("tool_calls", .arr [.obj [("function",
      .obj [("arguments", .str "ab")])]])])]])])⟩

/-- Tool-call frame contributing the argument fragment `"cd"`. -/
def lineC6b : SSELine :=
  ⟨true, some (.obj [("choices", .arr [.obj [("delta",
    .obj [("tool_calls", .arr [.obj [("function",
      .obj [("arguments", .str "cd")])]])])]])])⟩

/-- Reconstructed result of the tool-call example buffer: the single tool
call's arguments hold the concatenated fragments. -/
def infoC6 : ResponseInfo :=
  ⟨.num 1, .str "t", .str "m", .str "assistant",
    .arr [.obj [("index", .num 0), ("id", .str "call1"),
      ("type", .str "function"),
      ("function", .obj [("name", .str "f"), ("arguments", .str "abcd")])]],
    true, none⟩

/-- Header frame whose delta carries two tool calls. -/
def fdC7x : JsonV :=
  .obj [("id", .str "u"), ("created", .num 1), ("model", .str "m"),
    ("choices", .arr [.obj [("delta",
      .obj [("role", .str "assistant"),
        ("tool_calls", .arr [
          .obj [("function", .obj [("arguments", .str "")])],
          .obj [("function", .obj [("arguments", .str "q")])]])])]])]

/-- Tool-call frame contributing the fragment `"z"` in the C7
counterexample. -/
def lineC7x : SSELine :=
  ⟨true, some (.obj [("choices", .arr [.obj [("delta",
    .obj [("tool_calls", .arr [.obj [("function",
      .obj [("arguments", .str "z")])]])])]])])⟩

/-- Reconstructed result of the two-tool-call buffer: the final tool-call
list still has two entries, not one. -/
def infoC7x : ResponseInfo :=
  ⟨.num 1, .str "u", .str "m", .str "assistant",
    .arr [
      .obj [("function", .obj [("arguments", .str "z")])],
      .obj [("function", .obj [("arguments", .str "q")])]],
    true, none⟩

/-- Request body with the two required fields, a caching directive, and an
unrecognized field. -/
def kvsC8 : List (String × JsonV) :=
  [("messages", .arr [.obj [("role", .str "user"), ("content", .str "hi")]]),
    ("model", .str "gpt"), ("caching", .bool true), ("custom_field", .num 7)]

/-- A single content frame that reports `finish_reason == "stop"` with a
`delta.content` string but no `usage` key at all. -/
def jC10 : JsonV :=
  .obj [("choices", .arr [.obj [("delta",
    .obj [("content", .str "tail")]), ("finish_reason", .str "stop")]])]

/-- Reconstructed result of `docC2w`. -/
def infoC2w : ResponseInfo :=
  ⟨.num 2, .str "a", .str "m", .str "assistant", .str "hi", false, none⟩

/-- Marker line whose remainder fails to decode, skipped in the C4 witness. -/
def lineC4bad : SSELine := ⟨true, none⟩

/-- Streaming tool-call buffer with an undecodable line between the two
fragment frames. -/
def bufC6 : RespBuffer :=
  .stream (some fdC6) [lineC6a, ⟨true, none⟩, lineC6b]

/-- Header frame of a tool-call streaming response whose delta carries
exactly one tool call. -/
def fdC7 : JsonV :=
  .obj [("id", .str "v"), ("created", .num 1), ("model", .str "m"),
    ("choices", .arr [.obj [("delta",
      .obj [("role", .str "assistant"),
        ("tool_calls", .arr [.obj [("id", .str "call2"),
          ("function", .obj [("name", .str "g"), ("arguments", .str "")])]])])]])]

/-- Subsequent lines of the C7 witness buffer: two fragments with a
malformed line between them. -/
def restC7 : List SSELine := [lineC6a, ⟨true, none⟩, lineC6b]

/-- Reconstructed result of the C7 witness buffer. -/
def infoC7w : ResponseInfo :=
  ⟨.num 1, .str "v", .str "m", .str "assistant",
    .arr [.obj [("id", .str "call2"),
      ("function", .obj [("name", .str "g"), ("arguments", .str "abcd")])]],
    true, none⟩

/-- The `RequestInfo` produced from `kvsC8`. -/
def infoC8 : RequestInfo :=
  ⟨.arr [.obj [("role", .str "user"), ("content", .str "hi")]], .str "gpt",
    .bool false, .null, .null, .num 1, .num 1, .num 1, .null, .num 0, .num 0,
    .null, .null, .null, .null, .null, "1.2.3.4", "uid1", .bool true, "dt"⟩

/-- The residual body produced from `kvsC8`: the caching directive is gone,
everything else (including the unrecognized field) is untouched. -/
def resC8 : JsonV :=
  .obj [("messages", .arr [.obj [("role", .str "user"), ("content", .str "hi")]]),
    ("model", .str "gpt"), ("custom_field", .num 7)]

theorem strAppendEmpty (s : String) : s ++ "" = s := by
  simp

theorem strEmptyAppend (s : String) : "" ++ s = s := by
  simp

theorem strAppendAssoc (a b c : String) : a ++ b ++ c = a ++ (b ++ c) := by
  simp [String.append_assoc]

theorem lookup_updateAssoc (kvs : List (String × JsonV)) (k : String) (v : JsonV) :
    List.lookup k (updateAssoc kvs k v) = some v := by
  induction kvs with
  | nil => simp [updateAssoc, List.lookup]
  | cons p rest ih =>
    obtain ⟨k', v'⟩ := p
    by_cases h : k' = k
    · subst h
      simp [updateAssoc, List.lookup]
    · have h2 : (k == k') = false := by
        simp [beq_iff_eq]
        exact fun hh => h hh.symm
      simp [updateAssoc, h, List.lookup, h2, ih]

theorem lookup_removeKey_self (kvs : List (String × JsonV)) (k : String) :
    List.lookup k (removeKey kvs k) = none := by
  induction kvs with
  | nil => simp [removeKey, List.lookup]
  | cons p rest ih =>
    obtain ⟨k', v'⟩ := p
    by_cases h : k' = k
    · subst h; simp [removeKey, ih]
    · have h2 : (k == k') = false := by
        simp [beq_iff_eq]
        exact fun hh => h hh.symm
      simp [removeKey, h, List.lookup, h2, ih]

theorem lookup_removeKey_ne (kvs : List (String × JsonV)) (k k' : String)
    (h : k' ≠ k) : List.lookup k' (removeKey kvs k) = List.lookup k' kvs := by
  induction kvs with
  | nil => simp [removeKey]
  | cons p rest ih =>
    obtain ⟨k0, v0⟩ := p
    by_cases h0 : k0 = k
    · subst h0
      have h2 : (k' == k0) = false := by
        simp [beq_iff_eq]
        exact h
      simp [removeKey, List.lookup, h2, ih]
    · simp [removeKey, h0, List.lookup, ih]

theorem streamLoop_ok (lines : List SSELine) :
    ∀ (key acc : String) (u : Option JsonV) (sc : String) (us : Option JsonV),
      streamLoop lines key acc u = .ok (sc, us) →
      sc = acc ++ concatList (lines.map (lineIncrement key)) ∧
        us = lastUsageAux key lines u := by
  induction lines with
  | nil =>
    intro key acc u sc us h
    simp [streamLoop] at h
    obtain ⟨h1, h2⟩ := h
    subst h1; subst h2
    simp [concatList, lastUsageAux]
  | cons l ls ih =>
    intro key acc u sc us h
    cases hm : l.hasMarker with
    | false =>
      simp [streamLoop, hm] at h
      obtain ⟨h1, h2⟩ := ih key acc u sc us h
      refine ⟨?_, ?_⟩
      · simp [h1, concatList, lineIncrement, hm]
      · simp [h2, lastUsageAux, frameUsage, hm]
    | true =>
      simp only [streamLoop, hm, if_true] at h
      cases hp : parse_one_line_content l.json key with
      | error e => rw [hp] at h; exact absurd h (by simp)
      | ok r =>
        obtain ⟨dc, us1⟩ := r
        rw [hp] at h
        cases dc with
        | str s =>
          simp only [] at h
          obtain ⟨h1, h2⟩ := ih key (acc ++ s) (if truthy us1 then some us1 else u) sc us h
          constructor
          · rw [h1]
            have hinc : lineIncrement key l = s := by
              simp [lineIncrement, hm, hp]
            simp [concatList, hinc, strAppendAssoc]
          · rw [h2]
            have hfu : frameUsage key l = (if truthy us1 then some us1 else none) := by
              simp [frameUsage, hm, hp]
            rw [lastUsageAux, hfu]
            cases htr : truthy us1 <;> simp
        | null => exact absurd h (by simp)
        | bool b => exact absurd h (by simp)
        | num n => exact absurd h (by simp)
        | arr xs => exact absurd h (by simp)
        | obj kvs => exact absurd h (by simp)

theorem parse_soft (dec : Option JsonV) (key : String)
    (h : innerContent dec key = .error .jsonDecode ∨
      innerContent dec key = .error .keyError) :
    parse_one_line_content dec key = .ok (.str "", .null) := by
  cases h with
  | inl h => simp [parse_one_line_content, h]
  | inr h => simp [parse_one_line_content, h]

theorem parse_all_keys_skip (l : SSELine)
    (hc : softMalformed l "content") (ht : softMalformed l "tool_calls") :
    ∀ key, parse_one_line_content l.json key = .ok (.str "", .null) := by
  intro key
  by_cases h1 : key = "content"
  · subst h1; exact parse_soft l.json "content" hc.2
  · by_cases h2 : key = "tool_calls"
    · subst h2; exact parse_soft l.json "tool_calls" ht.2
    · cases hj : l.json with
      | none => simp [parse_one_line_content, innerContent]
      | some j => simp [parse_one_line_content, innerContent, h1, h2]

theorem streamLoop_skip (l : SSELine)
    (h : l.hasMarker = false ∨
      ∀ key, parse_one_line_content l.json key = .ok (.str "", .null)) :
    ∀ (ls : List SSELine) (key acc : String) (u : Option JsonV),
      streamLoop (l :: ls) key acc u = streamLoop ls key acc u := by
  intro ls key acc u
  cases h with
  | inl hm => simp [streamLoop, hm]
  | inr hp =>
    cases hm : l.hasMarker with
    | false => simp [streamLoop, hm]
    | true => simp [streamLoop, hm, hp key, truthy]

theorem streamLoop_insert (l : SSELine) (post : List SSELine)
    (h : l.hasMarker = false ∨
      ∀ key, parse_one_line_content l.json key = .ok (.str "", .null)) :
    ∀ (pre : List SSELine) (key acc : String) (u : Option JsonV),
      streamLoop (pre ++ l :: post) key acc u = streamLoop (pre ++ post) key acc u := by
  intro pre
  induction pre with
  | nil =>
    intro key acc u
    simpa using streamLoop_skip l h post key acc u
  | cons p pre' ih =>
    intro key acc u
    cases hpm : p.hasMarker with
    | false => simp [streamLoop, hpm, ih]
    | true =>
      simp only [List.cons_append, streamLoop, hpm, if_true]
      cases hp : parse_one_line_content p.json key with
      | error e => rfl
      | ok r =>
        obtain ⟨dc, us1⟩ := r
        cases dc <;> simp [ih]

theorem finishParse_congr (fd msg : JsonV) (r1 r2 : List SSELine)
    (hs : ∀ (key acc : String) (u : Option JsonV),
      streamLoop r1 key acc u = streamLoop r2 key acc u) :
    finishParse fd msg true r1 = finishParse fd msg true r2 := by
  simp only [finishParse, hs]

theorem parse_insert (fd : JsonV) (l : SSELine) (pre post : List SSELine)
    (h : l.hasMarker = false ∨
      ∀ key, parse_one_line_content l.json key = .ok (.str "", .null)) :
    parse_bytearray (.stream (some fd) (pre ++ l :: post)) =
      parse_bytearray (.stream (some fd) (pre ++ post)) := by
  simp only [parse_bytearray]
  split
  · rfl
  · split
    · rfl
    · split
      · rfl
      · exact finishParse_congr fd _ _ _ (streamLoop_insert l post h pre)

theorem isStop_true {j : JsonV} (h : isStop j = true) : j = .str "stop" := by
  cases j <;> simp_all [isStop]

theorem getKey_ok {j : JsonV} {k : String} {v : JsonV} (h : getKey j k = .ok v) :
    ∃ kvs, j = .obj kvs ∧ List.lookup k kvs = some v := by
  cases j <;> simp only [getKey] at h
  case obj kvs =>
    cases hl : List.lookup k kvs with
    | none => rw [hl] at h; simp at h
    | some w =>
      rw [hl] at h
      simp only [] at h
      simp only [Except.ok.injEq] at h
      exact ⟨kvs, rfl, by rw [hl, h]⟩
  all_goals simp at h

theorem setObjKey_ok {j : JsonV} {k : String} {v w : JsonV}
    (h : setObjKey j k v = .ok w) :
    ∃ kvs, j = .obj kvs ∧ w = .obj (updateAssoc kvs k v) := by
  cases j <;> simp only [setObjKey] at h
  case obj kvs =>
    simp only [Except.ok.injEq] at h
    exact ⟨kvs, rfl, h.symm⟩
  all_goals simp at h

theorem assign_inv {tc : JsonV} {s : String} {v : JsonV}
    (h : assignToolCallArguments tc s = .ok v) :
    ∃ t0kvs ts fnkvs, tc = .arr (.obj t0kvs :: ts) ∧
      List.lookup "function" t0kvs = some (.obj fnkvs) ∧
      v = .arr (.obj (updateAssoc t0kvs "function"
        (.obj (updateAssoc fnkvs "arguments" (.str s)))) :: ts) := by
  cases tc with
  | arr xs =>
    cases xs with
    | nil => simp [assignToolCallArguments] at h
    | cons t0 rest =>
      simp only [assignToolCallArguments] at h
      cases hfn : getKey t0 "function" with
      | error e => rw [hfn] at h; simp at h
      | ok fn =>
        rw [hfn] at h
        simp only [] at h
        cases hset : setObjKey fn "arguments" (.str s) with
        | error e => rw [hset] at h; simp at h
        | ok fn2 =>
          rw [hset] at h
          simp only [] at h
          cases hset2 : setObjKey t0 "function" fn2 with
          | error e => rw [hset2] at h; simp at h
          | ok t02 =>
            rw [hset2] at h
            simp only [Except.ok.injEq] at h
            obtain ⟨t0kvs, ht0, hlk⟩ := getKey_ok hfn
            obtain ⟨fnkvs, hfnobj, hfn2⟩ := setObjKey_ok hset
            obtain ⟨t0kvs2, ht02, ht02v⟩ := setObjKey_ok hset2
            subst ht0
            have heq2 : t0kvs2 = t0kvs := by
              injection ht02 with hh
              exact hh.symm
            subst heq2
            subst hfnobj
            refine ⟨_, rest, fnkvs, rfl, hlk, ?_⟩
            rw [← h, ht02v, hfn2]
  | null => simp [assignToolCallArguments] at h
  | bool b => simp [assignToolCallArguments] at h
  | num n => simp [assignToolCallArguments] at h
  | str s' => by_cases hs : s' = "" <;> simp [assignToolCallArguments, hs] at h
  | obj kvs => simp [assignToolCallArguments] at h

theorem lastUsageAux_none_iff (key : String) (ls : List SSELine) :
    ∀ (u : Option JsonV),
      lastUsageAux key ls u = none ↔
        (u = none ∧ ∀ l ∈ ls, frameUsage key l = none) := by
  induction ls with
  | nil => intro u; simp [lastUsageAux]
  | cons l ls ih =>
    intro u
    simp only [lastUsageAux]
    rw [ih]
    cases hf : frameUsage key l with
    | some v => simp [hf, List.forall_mem_cons]
    | none => simp [hf, List.forall_mem_cons]

theorem lastUsageAux_some (key : String) (ls : List SSELine) :
    ∀ (u : Option JsonV) (v : JsonV),
      lastUsageAux key ls u = some v →
      (∃ l ∈ ls, frameUsage key l = some v) ∨ u = some v := by
  induction ls with
  | nil =>
    intro u v h
    simp [lastUsageAux] at h
    right
    rw [h]
  | cons l ls ih =>
    intro u v h
    simp only [lastUsageAux] at h
    rcases ih _ v h with hex | hu
    · left
      obtain ⟨l', hl', hf⟩ := hex
      exact ⟨l', List.mem_cons_of_mem _ hl', hf⟩
    · cases hf : frameUsage key l with
      | some w =>
        simp only [hf] at hu
        left
        exact ⟨l, List.mem_cons_self _ _, by rw [hf, hu]⟩
      | none =>
        simp only [hf] at hu
        right
        exact hu

theorem innerContent_content (dec : Option JsonV) :
    innerContent dec "content" =
      (match dec with
      | none => Except.error .jsonDecode
      | some line_dict =>
        match getKey line_dict "choices" with
        | .error e => Except.error e
        | .ok choices =>
        match getIdx choices 0 with
        | .error e => Except.error e
        | .ok c0 =>
        match getKey c0 "delta" with
        | .error e => Except.error e
        | .ok delta =>
        match getKey delta "content" with
        | .error e => Except.error e
        | .ok delta_content =>
        match getKey c0 "finish_reason" with
        | .error e => Except.error e
        | .ok finish_reason =>
          if isStop finish_reason then
            match getKey line_dict "usage" with
            | .error e => Except.error e
            | .ok usage => Except.ok (delta_content, usage)
          else Except.ok (delta_content, .null)) := by
  cases dec <;> rfl

theorem frameUsage_content_some {l : SSELine} {u : JsonV}
    (h : frameUsage "content" l = some u) :
    l.hasMarker = true ∧ truthy u = true ∧
      ∃ j, l.json = some j ∧ getKey j "usage" = .ok u ∧
        ∃ ch c0, getKey j "choices" = .ok ch ∧ getIdx ch 0 = .ok c0 ∧
          getKey c0 "finish_reason" = .ok (.str "stop") ∧
          ∃ d dc, getKey c0 "delta" = .ok d ∧ getKey d "content" = .ok dc := by
  cases hm : l.hasMarker with
  | false => simp [frameUsage, hm] at h
  | true =>
    simp only [frameUsage, hm, if_true] at h
    cases hp : parse_one_line_content l.json "content" with
    | error e => rw [hp] at h; simp at h
    | ok r =>
      obtain ⟨c, us⟩ := r
      rw [hp] at h
      simp only [] at h
      cases ht : truthy us with
      | false => simp [ht] at h
      | true =>
        simp only [ht, if_true, Option.some.injEq] at h
        subst h
        simp only [parse_one_line_content] at hp
        cases hin : innerContent l.json "content" with
        | error e =>
          cases e <;> rw [hin] at hp <;> simp only [] at hp
          case jsonDecode =>
            simp only [Except.ok.injEq, Prod.mk.injEq] at hp
            obtain ⟨hc1, hu1⟩ := hp
            rw [← hu1] at ht
            simp [truthy] at ht
          case keyError =>
            simp only [Except.ok.injEq, Prod.mk.injEq] at hp
            obtain ⟨hc1, hu1⟩ := hp
            rw [← hu1] at ht
            simp [truthy] at ht
          all_goals simp at hp
        | ok r' =>
          rw [hin] at hp
          simp only [Except.ok.injEq] at hp
          rw [hp] at hin
          rw [innerContent_content] at hin
          cases hj : l.json with
          | none => rw [hj] at hin; simp at hin
          | some j =>
            rw [hj] at hin
            simp only [] at hin
            cases hch : getKey j "choices" with
            | error e => rw [hch] at hin; simp at hin
            | ok ch =>
              rw [hch] at hin
              simp only [] at hin
              cases hc0 : getIdx ch 0 with
              | error e => rw [hc0] at hin; simp at hin
              | ok c0 =>
                rw [hc0] at hin
                simp only [] at hin
                cases hd : getKey c0 "delta" with
                | error e => rw [hd] at hin; simp at hin
                | ok d =>
                  rw [hd] at hin
                  simp only [] at hin
                  cases hdc : getKey d "content" with
                  | error e => rw [hdc] at hin; simp at hin
                  | ok dc =>
                    rw [hdc] at hin
                    simp only [] at hin
                    cases hfr : getKey c0 "finish_reason" with
                    | error e => rw [hfr] at hin; simp at hin
                    | ok fr =>
                      rw [hfr] at hin
                      simp only [] at hin
                      cases hstop : isStop fr with
                      | false =>
                        simp only [hstop, Bool.false_eq_true, if_false,
                          Except.ok.injEq, Prod.mk.injEq] at hin
                        obtain ⟨hc1, hu1⟩ := hin
                        rw [← hu1] at ht
                        simp [truthy] at ht
                      | true =>
                        simp only [hstop, if_true] at hin
                        cases hu2 : getKey j "usage" with
                        | error e => rw [hu2] at hin; simp at hin
                        | ok usg =>
                          rw [hu2] at hin
                          simp only [Except.ok.injEq, Prod.mk.injEq] at hin
                          obtain ⟨hc1, hu1⟩ := hin
                          rw [isStop_true hstop] at hfr
                          refine ⟨rfl, ht, j, rfl, ?_, ch, c0, hch, hc0, hfr,
                            d, dc, hd, hdc⟩
                          rw [hu1] at hu2
                          exact hu2

theorem finishParse_ok_inv {fd msg : JsonV} {stream : Bool} {rest : List SSELine}
    {info : ResponseInfo} (h : finishParse fd msg stream rest = .ok info) :
    ∃ cr idv mdl rl ct tc,
      getKey fd "created" = .ok cr ∧ getKey fd "id" = .ok idv ∧
        getKey fd "model" = .ok mdl ∧ getKey msg "role" = .ok rl ∧
        dictGet msg "content" = .ok ct ∧ dictGet msg "tool_calls" = .ok tc ∧
        hashableKey rl = true ∧
        info.created = cr ∧ info.id = idv ∧ info.model = mdl ∧ info.role = rl ∧
        info.is_tool_calls = truthy tc ∧
        ((stream = false ∧ info.usage = none ∧
            info.roleVal = (if truthy tc then tc else ct)) ∨
          (stream = true ∧ ∃ sc us,
            streamLoop rest (if truthy tc then "tool_calls" else "content") "" none
              = .ok (sc, us) ∧
            info.usage = us ∧
            ((truthy tc = true ∧ ∃ tc2,
                assignToolCallArguments tc sc = .ok tc2 ∧ info.roleVal = tc2) ∨
              (truthy tc = false ∧ info.roleVal = .str sc)))) := by
  simp only [finishParse] at h
  cases hcr : getKey fd "created" with
  | error e => rw [hcr] at h; simp at h
  | ok cr =>
  rw [hcr] at h
  simp only [] at h
  cases hid : getKey fd "id" with
  | error e => rw [hid] at h; simp at h
  | ok idv =>
  rw [hid] at h
  simp only [] at h
  cases hmd : getKey fd "model" with
  | error e => rw [hmd] at h; simp at h
  | ok mdl =>
  rw [hmd] at h
  simp only [] at h
  cases hrl : getKey msg "role" with
  | error e => rw [hrl] at h; simp at h
  | ok rl =>
  rw [hrl] at h
  simp only [] at h
  cases hct : dictGet msg "content" with
  | error e => rw [hct] at h; simp at h
  | ok ct =>
  rw [hct] at h
  simp only [] at h
  cases htc : dictGet msg "tool_calls" with
  | error e => rw [htc] at h; simp at h
  | ok tc =>
  rw [htc] at h
  simp only [] at h
  cases hhk : hashableKey rl with
  | false => rw [hhk] at h; simp at h
  | true =>
  rw [hhk] at h
  simp only [] at h
  cases stream with
  | false =>
    simp only [] at h
    simp only [Except.ok.injEq] at h
    subst h
    exact ⟨cr, idv, mdl, rl, ct, tc, rfl, rfl, rfl, rfl, rfl, rfl, hhk,
      rfl, rfl, rfl, rfl, rfl, Or.inl ⟨rfl, rfl, rfl⟩⟩
  | true =>
    simp only [] at h
    cases hsl : streamLoop rest (if truthy tc then "tool_calls" else "content") "" none with
    | error e => rw [hsl] at h; simp at h
    | ok p =>
      obtain ⟨sc, us⟩ := p
      rw [hsl] at h
      simp only [] at h
      cases htr : truthy tc with
      | true =>
        simp only [htr, if_true] at h
        cases hass : assignToolCallArguments tc sc with
        | error e => rw [hass] at h; simp at h
        | ok tc2 =>
          rw [hass] at h
          simp only [Except.ok.injEq] at h
          subst h
          exact ⟨cr, idv, mdl, rl, ct, tc, rfl, rfl, rfl, rfl, rfl, rfl, hhk,
            rfl, rfl, rfl, rfl, htr.symm,
            Or.inr ⟨rfl, sc, us, hsl, rfl, Or.inl ⟨htr, tc2, hass, rfl⟩⟩⟩
      | false =>
        simp only [htr, Bool.false_eq_true, if_false] at h
        simp only [Except.ok.injEq] at h
        subst h
        exact ⟨cr, idv, mdl, rl, ct, tc, rfl, rfl, rfl, rfl, rfl, rfl, hhk,
          rfl, rfl, rfl, rfl, htr.symm,
          Or.inr ⟨rfl, sc, us, hsl, rfl, Or.inr ⟨htr, rfl⟩⟩⟩

theorem parse_stream_inv {fd : JsonV} {rest : List SSELine} {info : ResponseInfo}
    (h : parse_bytearray (.stream (some fd) rest) = .ok info) :
    ∃ ch c0 msg, getKey fd "choices" = .ok ch ∧ getIdx ch 0 = .ok c0 ∧
      getKey c0 "delta" = .ok msg ∧ finishParse fd msg true rest = .ok info := by
  simp only [parse_bytearray] at h
  cases hch : getKey fd "choices" with
  | error e => rw [hch] at h; simp at h
  | ok ch =>
  rw [hch] at h
  simp only [] at h
  cases hc0 : getIdx ch 0 with
  | error e => rw [hc0] at h; simp at h
  | ok c0 =>
  rw [hc0] at h
  simp only [] at h
  cases hmsg : getKey c0 "delta" with
  | error e => rw [hmsg] at h; simp at h
  | ok msg =>
  rw [hmsg] at h
  simp only [] at h
  exact ⟨ch, c0, msg, rfl, hc0, hmsg, h⟩

theorem parse_single_inv {doc : JsonV} {info : ResponseInfo}
    (h : parse_bytearray (.single (some doc)) = .ok info) :
    ∃ ch c0 msg, getKey doc "choices" = .ok ch ∧ getIdx ch 0 = .ok c0 ∧
      getKey c0 "message" = .ok msg ∧ finishParse doc msg false [] = .ok info := by
  simp only [parse_bytearray] at h
  cases hch : getKey doc "choices" with
  | error e => rw [hch] at h; simp at h
  | ok ch =>
  rw [hch] at h
  simp only [] at h
  cases hc0 : getIdx ch 0 with
  | error e => rw [hc0] at h; simp at h
  | ok c0 =>
  rw [hc0] at h
  simp only [] at h
  cases hmsg : getKey c0 "message" with
  | error e => rw [hmsg] at h; simp at h
  | ok msg =>
  rw [hmsg] at h
  simp only [] at h
  exact ⟨ch, c0, msg, rfl, hc0, hmsg, h⟩


/-- Unfolds `innerContent` at the `"tool_calls"` key: the key dispatch
resolves to the tool-call extraction chain, whose every successful outcome
pairs the arguments fragment with `null` usage. -/
theorem innerContent_tool (dec : Option JsonV) :
    innerContent dec "tool_calls" =
      (match dec with
      | none => Except.error .jsonDecode
      | some line_dict =>
        match getKey line_dict "choices" with
        | .error e => Except.error e
        | .ok choices =>
        match getIdx choices 0 with
        | .error e => Except.error e
        | .ok c0 =>
        match getKey c0 "delta" with
        | .error e => Except.error e
        | .ok delta =>
        match getKey delta "tool_calls" with
        | .error e => Except.error e
        | .ok tool_calls =>
        match getIdx tool_calls 0 with
        | .error e => Except.error e
        | .ok t0 =>
        match getKey t0 "function" with
        | .error e => Except.error e
        | .ok fn =>
        match getKey fn "arguments" with
        | .error e => Except.error e
        | .ok args => Except.ok (args, .null)) := by
  cases dec <;> rfl

/-- A successful tool-call extraction always carries `null` usage. -/
theorem innerContent_tool_ok {dec : Option JsonV} {c us : JsonV}
    (h : innerContent dec "tool_calls" = .ok (c, us)) : us = .null := by
  rw [innerContent_tool] at h
  cases dec with
  | none => simp at h
  | some j =>
    simp only [] at h
    cases hch : getKey j "choices" with
    | error e => rw [hch] at h; simp at h
    | ok ch =>
    rw [hch] at h
    simp only [] at h
    cases hc0 : getIdx ch 0 with
    | error e => rw [hc0] at h; simp at h
    | ok c0 =>
    rw [hc0] at h
    simp only [] at h
    cases hd : getKey c0 "delta" with
    | error e => rw [hd] at h; simp at h
    | ok d =>
    rw [hd] at h
    simp only [] at h
    cases htc : getKey d "tool_calls" with
    | error e => rw [htc] at h; simp at h
    | ok tcs =>
    rw [htc] at h
    simp only [] at h
    cases ht0 : getIdx tcs 0 with
    | error e => rw [ht0] at h; simp at h
    | ok t0 =>
    rw [ht0] at h
    simp only [] at h
    cases hfn : getKey t0 "function" with
    | error e => rw [hfn] at h; simp at h
    | ok fn =>
    rw [hfn] at h
    simp only [] at h
    cases ha : getKey fn "arguments" with
    | error e => rw [ha] at h; simp at h
    | ok args =>
    rw [ha] at h
    simp only [Except.ok.injEq, Prod.mk.injEq] at h
    exact h.2.symm

/-- In tool-call mode, `_parse_one_line_content` never returns a truthy
usage: a successful line yields `null` usage, and the caught errors yield
`("", null)`. -/
theorem parse_tool_usage_null {dec : Option JsonV} {c us : JsonV}
    (h : parse_one_line_content dec "tool_calls" = .ok (c, us)) : us = .null := by
  simp only [parse_one_line_content] at h
  cases hin : innerContent dec "tool_calls" with
  | ok r =>
    obtain ⟨c2, us2⟩ := r
    rw [hin] at h
    simp only [Except.ok.injEq, Prod.mk.injEq] at h
    rw [← h.2]
    exact innerContent_tool_ok hin
  | error e =>
    cases e <;> rw [hin] at h <;> simp only [] at h
    case jsonDecode =>
      simp only [Except.ok.injEq, Prod.mk.injEq] at h
      exact h.2.symm
    case keyError =>
      simp only [Except.ok.injEq, Prod.mk.injEq] at h
      exact h.2.symm
    all_goals simp at h

/-- No line ever records a usage value under the tool-call discriminator. -/
theorem frameUsage_tool_none (l : SSELine) :
    frameUsage "tool_calls" l = none := by
  cases hm : l.hasMarker with
  | false => simp [frameUsage, hm]
  | true =>
    simp only [frameUsage, hm, if_true]
    cases hp : parse_one_line_content l.json "tool_calls" with
    | error e => rfl
    | ok r =>
      obtain ⟨c, us⟩ := r
      have hn := parse_tool_usage_null hp
      subst hn
      simp [truthy]

/-- Folding the usage updates of a tool-call stream changes nothing. -/
theorem lastUsageAux_tool (ls : List SSELine) :
    ∀ u : Option JsonV, lastUsageAux "tool_calls" ls u = u := by
  induction ls with
  | nil => intro u; rfl
  | cons l ls ih =>
    intro u
    simp only [lastUsageAux, frameUsage_tool_none]
    exact ih u

/-- C1: for a streaming buffer whose first frame decodes and whose
discriminator is content, the final content is the concatenation, in arrival
order, of the per-line increments of the subsequent lines — the parsed
`choices[0].delta.content` string of each line, with any soft-malformed line
(invalid JSON or a missing dictionary key on the expected path) contributing
the empty string. -/
theorem c1_stream_content_concat (fd : JsonV) (rest : List SSELine)
    (info : ResponseInfo)
    (h : parse_bytearray (.stream (some fd) rest) = .ok info)
    (hc : info.is_tool_calls = false) :
    info.roleVal = .str (concatList (rest.map (lineIncrement "content"))) ∧
      (∀ l ∈ rest, softMalformed l "content" → lineIncrement "content" l = "") ∧
      (∀ l ∈ rest, ∀ j ch2 c02 d s fr, l.hasMarker = true → l.json = some j →
        getKey j "choices" = .ok ch2 → getIdx ch2 0 = .ok c02 →
        getKey c02 "delta" = .ok d → getKey d "content" = .ok (.str s) →
        getKey c02 "finish_reason" = .ok fr → isStop fr = false →
        lineIncrement "content" l = s) := by
  obtain ⟨ch, c0, msg, hch, hc0, hmsg, hfin⟩ := parse_stream_inv h
  obtain ⟨cr, idv, mdl, rl, ct, tc, h1, h2, h3, h4, h5, h6, h7,
    h8, h9, h10, h11, hflag, hbr⟩ := finishParse_ok_inv hfin
  rcases hbr with ⟨hfalse, _⟩ | ⟨_, sc, us, hsl, hus, hcase⟩
  · exact absurd hfalse (by simp)
  · have htr : truthy tc = false := by rw [← hflag, hc]
    rcases hcase with ⟨htr2, _⟩ | ⟨_, hrole⟩
    · rw [htr] at htr2
      exact absurd htr2 (by simp)
    · rw [htr] at hsl
      simp only [Bool.false_eq_true, if_false] at hsl
      obtain ⟨hsc, husage⟩ := streamLoop_ok rest "content" "" none sc us hsl
      refine ⟨?_, ?_, ?_⟩
      · rw [hrole, hsc]
        simp
      · intro l hl hm
        have hp := parse_soft l.json "content" hm.2
        simp [lineIncrement, hm.1, hp]
      · intro l hl j ch2 c02 d s fr hmk hj hch2 hc02 hd hs hfr hstop
        have hin : innerContent l.json "content" = .ok (.str s, .null) := by
          rw [innerContent_content, hj]
          simp only []
          rw [hch2]
          simp only []
          rw [hc02]
          simp only []
          rw [hd]
          simp only []
          rw [hs]
          simp only []
          rw [hfr]
          simp only []
          simp [hstop]
        simp [lineIncrement, hmk, parse_one_line_content, hin]

/-- C1 witness: the example buffer with frames `"Hel"`, an undecodable line,
and `"lo"` reconstructs to `"Hello"`. -/
theorem c1_witness :
    infoC1.roleVal = .str (concatList (restC1.map (lineIncrement "content"))) ∧
      (∀ l ∈ restC1, softMalformed l "content" → lineIncrement "content" l = "") ∧
      (∀ l ∈ restC1, ∀ j ch2 c02 d s fr, l.hasMarker = true → l.json = some j →
        getKey j "choices" = .ok ch2 → getIdx ch2 0 = .ok c02 →
        getKey c02 "delta" = .ok d → getKey d "content" = .ok (.str s) →
        getKey c02 "finish_reason" = .ok fr → isStop fr = false →
        lineIncrement "content" l = s) :=
  c1_stream_content_concat fdC1 restC1 infoC1 rfl rfl

/-- C2 (amended): the result of a non-streaming buffer mirrors the
document's header fields and its content or tool-call payload, selected and
flagged by the truthiness of `message.tool_calls` — but its usage is never
copied: the non-streaming result carries no usage at all. -/
theorem c2_nonstream_mirror (doc : JsonV) (info : ResponseInfo)
    (h : parse_bytearray (.single (some doc)) = .ok info) :
    ∃ ch c0 msg cr idv mdl rl ct tc,
      getKey doc "choices" = .ok ch ∧ getIdx ch 0 = .ok c0 ∧
        getKey c0 "message" = .ok msg ∧
        getKey doc "created" = .ok cr ∧ getKey doc "id" = .ok idv ∧
        getKey doc "model" = .ok mdl ∧ getKey msg "role" = .ok rl ∧
        dictGet msg "content" = .ok ct ∧ dictGet msg "tool_calls" = .ok tc ∧
        info.created = cr ∧ info.id = idv ∧ info.model = mdl ∧ info.role = rl ∧
        info.is_tool_calls = truthy tc ∧
        info.roleVal = (if truthy tc then tc else ct) ∧
        info.usage = none := by
  obtain ⟨ch, c0, msg, hch, hc0, hmsg, hfin⟩ := parse_single_inv h
  obtain ⟨cr, idv, mdl, rl, ct, tc, h1, h2, h3, h4, h5, h6, h7,
    h8, h9, h10, h11, hflag, hbr⟩ := finishParse_ok_inv hfin
  rcases hbr with ⟨_, husage, hrole⟩ | ⟨hts, _⟩
  · exact ⟨ch, c0, msg, cr, idv, mdl, rl, ct, tc, hch, hc0, hmsg, h1, h2, h3,
      h4, h5, h6, h8, h9, h10, h11, hflag, hrole, husage⟩
  · exact absurd hts (by simp)

/-- C2 witness: a concrete non-streaming content document mirrors into the
expected record. -/
theorem c2_witness :
    ∃ ch c0 msg cr idv mdl rl ct tc,
      getKey docC2w "choices" = .ok ch ∧ getIdx ch 0 = .ok c0 ∧
        getKey c0 "message" = .ok msg ∧
        getKey docC2w "created" = .ok cr ∧ getKey docC2w "id" = .ok idv ∧
        getKey docC2w "model" = .ok mdl ∧ getKey msg "role" = .ok rl ∧
        dictGet msg "content" = .ok ct ∧ dictGet msg "tool_calls" = .ok tc ∧
        infoC2w.created = cr ∧ infoC2w.id = idv ∧ infoC2w.model = mdl ∧
        infoC2w.role = rl ∧
        infoC2w.is_tool_calls = truthy tc ∧
        infoC2w.roleVal = (if truthy tc then tc else ct) ∧
        infoC2w.usage = none :=
  c2_nonstream_mirror docC2w infoC2w rfl

/-- C2 counterexample: the claim also asserts that usage statistics are
mirrored, but a non-streaming document carrying a usage object reconstructs
to a result with no usage. -/
theorem c2_counterexample :
    getKey docC2x "usage" = .ok (.obj [("total_tokens", .num 7)]) ∧
      parse_bytearray (.single (some docC2x)) = .ok infoC2x ∧
      infoC2x.usage = none :=
  ⟨rfl, rfl, rfl⟩

/-- C3 (amended): for a streaming content-mode buffer, the recorded usage is
the last truthy usage reported by a subsequent line; it is absent exactly
when no line reports a truthy usage, and any line reporting one decodes to a
frame that carries `finish_reason == "stop"`, that very usage value under
its `usage` key, and a `choices[0].delta.content` entry.  Tool-call results
(streaming or not) and non-streaming buffers never record usage. -/
theorem c3_stream_usage (buf : RespBuffer) (info : ResponseInfo)
    (h : parse_bytearray buf = .ok info) :
    (∀ fd rest, buf = .stream (some fd) rest → info.is_tool_calls = false →
      info.usage = lastUsage "content" rest ∧
        (info.usage = none ↔ ∀ l ∈ rest, frameUsage "content" l = none) ∧
        (∀ u, info.usage = some u → ∃ l ∈ rest, frameUsage "content" l = some u) ∧
        (∀ l ∈ rest, ∀ u, frameUsage "content" l = some u →
          l.hasMarker = true ∧ truthy u = true ∧
            ∃ j, l.json = some j ∧ getKey j "usage" = .ok u ∧
              ∃ ch c0, getKey j "choices" = .ok ch ∧ getIdx ch 0 = .ok c0 ∧
                getKey c0 "finish_reason" = .ok (.str "stop") ∧
                ∃ d dc, getKey c0 "delta" = .ok d ∧ getKey d "content" = .ok dc)) ∧
      (info.is_tool_calls = true → info.usage = none) ∧
      (∀ dec, buf = .single dec → info.usage = none) := by
  refine ⟨?_, ?_, ?_⟩
  · intro fd rest heq hc
    subst heq
    obtain ⟨ch, c0, msg, hch, hc0, hmsg, hfin⟩ := parse_stream_inv h
    obtain ⟨cr, idv, mdl, rl, ct, tc, h1, h2, h3, h4, h5, h6, h7,
      h8, h9, h10, h11, hflag, hbr⟩ := finishParse_ok_inv hfin
    rcases hbr with ⟨hfalse, _⟩ | ⟨_, sc, us, hsl, hus, hcase⟩
    · exact absurd hfalse (by simp)
    · have htr : truthy tc = false := by rw [← hflag, hc]
      rw [htr] at hsl
      simp only [Bool.false_eq_true, if_false] at hsl
      obtain ⟨hsc, husage⟩ := streamLoop_ok rest "content" "" none sc us hsl
      have hueq : info.usage = lastUsage "content" rest := by
        rw [hus, husage]
        rfl
      refine ⟨hueq, ?_, ?_, ?_⟩
      · rw [hueq]
        unfold lastUsage
        rw [lastUsageAux_none_iff]
        simp
      · intro u hu
        rw [hueq] at hu
        rcases lastUsageAux_some "content" rest none u hu with hex | habs
        · exact hex
        · exact absurd habs (by simp)
      · intro l hl u hf
        exact frameUsage_content_some hf
  · intro hit
    cases buf with
    | single dec =>
      cases dec with
      | none => simp [parse_bytearray] at h
      | some doc =>
        obtain ⟨ch, c0, msg, hch, hc0, hmsg, hfin⟩ := parse_single_inv h
        obtain ⟨cr, idv, mdl, rl, ct, tc, h1, h2, h3, h4, h5, h6, h7,
          h8, h9, h10, h11, hflag, hbr⟩ := finishParse_ok_inv hfin
        rcases hbr with ⟨_, husage, _⟩ | ⟨hts, _⟩
        · exact husage
        · exact absurd hts (by simp)
    | stream dec rest =>
      cases dec with
      | none => simp [parse_bytearray] at h
      | some fd =>
        obtain ⟨ch, c0, msg, hch, hc0, hmsg, hfin⟩ := parse_stream_inv h
        obtain ⟨cr, idv, mdl, rl, ct, tc, h1, h2, h3, h4, h5, h6, h7,
          h8, h9, h10, h11, hflag, hbr⟩ := finishParse_ok_inv hfin
        rcases hbr with ⟨hfalse, _⟩ | ⟨_, sc, us, hsl, hus, hcase⟩
        · exact absurd hfalse (by simp)
        · have htr : truthy tc = true := by rw [← hflag, hit]
          rw [htr] at hsl
          simp only [if_true] at hsl
          obtain ⟨hsc, husage⟩ := streamLoop_ok rest "tool_calls" "" none sc us hsl
          rw [hus, husage]
          exact lastUsageAux_tool rest none
  · intro dec heq
    subst heq
    cases dec with
    | none => simp [parse_bytearray] at h
    | some doc =>
      obtain ⟨ch, c0, msg, hch, hc0, hmsg, hfin⟩ := parse_single_inv h
      obtain ⟨cr, idv, mdl, rl, ct, tc, h1, h2, h3, h4, h5, h6, h7,
        h8, h9, h10, h11, hflag, hbr⟩ := finishParse_ok_inv hfin
      rcases hbr with ⟨_, husage, _⟩ | ⟨hts, _⟩
      · exact husage
      · exact absurd hts (by simp)

/-- C3 witness: a single terminal frame with a truthy usage is recorded,
and the tool-call and non-streaming clauses hold for the example buffer. -/
theorem c3_witness :
    (∀ fd rest, RespBuffer.stream (some fdC3) [lineC3w] = .stream (some fd) rest →
      infoC3w.is_tool_calls = false →
      infoC3w.usage = lastUsage "content" rest ∧
        (infoC3w.usage = none ↔ ∀ l ∈ rest, frameUsage "content" l = none) ∧
        (∀ u, infoC3w.usage = some u →
          ∃ l ∈ rest, frameUsage "content" l = some u) ∧
        (∀ l ∈ rest, ∀ u, frameUsage "content" l = some u →
          l.hasMarker = true ∧ truthy u = true ∧
            ∃ j, l.json = some j ∧ getKey j "usage" = .ok u ∧
              ∃ ch c0, getKey j "choices" = .ok ch ∧ getIdx ch 0 = .ok c0 ∧
                getKey c0 "finish_reason" = .ok (.str "stop") ∧
                ∃ d dc, getKey c0 "delta" = .ok d ∧ getKey d "content" = .ok dc)) ∧
      (infoC3w.is_tool_calls = true → infoC3w.usage = none) ∧
      (∀ dec, RespBuffer.stream (some fdC3) [lineC3w] = .single dec →
        infoC3w.usage = none) :=
  c3_stream_usage (.stream (some fdC3) [lineC3w]) infoC3w rfl

/-- C3 counterexample: the frame `jC3` reports `finish_reason == "stop"`
(and even carries a `usage` key, whose value is `null`), yet the
reconstructed result records no usage — refuting the claimed
"if and only if some frame reported finish_reason stop". -/
theorem c3_counterexample :
    getKey (JsonV.obj [("delta", .obj [("content", .str "x")]),
        ("finish_reason", .str "stop")]) "finish_reason" = .ok (.str "stop") ∧
      getKey jC3 "choices" = .ok (.arr [.obj [("delta",
        .obj [("content", .str "x")]), ("finish_reason", .str "stop")]]) ∧
      getKey jC3 "usage" = .ok .null ∧
      parse_bytearray (.stream (some fdC3) [lineC3]) = .ok infoC3 ∧
      infoC3.usage = none :=
  ⟨rfl, rfl, rfl, rfl, rfl⟩

/-- C4 (amended): a subsequent line that fails to decode as JSON or raises a
missing-dictionary-key error (for both discriminators), or that lacks the
marker, contributes a zero-length increment and no usage, and can be removed
from the buffer without changing the reconstruction result; however this
tolerance does not extend to lines that decode but fail structurally in
other ways (see the counterexample: an empty `choices` array aborts). -/
theorem c4_soft_frame_skipped (fd : JsonV) (pre post : List SSELine) (l : SSELine)
    (hl : l.hasMarker = false ∨
      (softMalformed l "content" ∧ softMalformed l "tool_calls")) :
    parse_bytearray (.stream (some fd) (pre ++ l :: post)) =
        parse_bytearray (.stream (some fd) (pre ++ post)) ∧
      lineIncrement "content" l = "" ∧ lineIncrement "tool_calls" l = "" ∧
      frameUsage "content" l = none ∧ frameUsage "tool_calls" l = none := by
  have hall : l.hasMarker = false ∨
      ∀ key, parse_one_line_content l.json key = .ok (.str "", .null) := by
    rcases hl with hm | ⟨hcm, htm⟩
    · exact Or.inl hm
    · exact Or.inr (parse_all_keys_skip l hcm htm)
  refine ⟨parse_insert fd l pre post hall, ?_, ?_, ?_, ?_⟩ <;>
    rcases hall with hm | hp
  · simp [lineIncrement, hm]
  · simp [lineIncrement, hp "content"]
  · simp [lineIncrement, hm]
  · simp [lineIncrement, hp "tool_calls"]
  · simp [frameUsage, hm]
  · simp [frameUsage, hp "content", truthy]
  · simp [frameUsage, hm]
  · simp [frameUsage, hp "tool_calls", truthy]

/-- C4 witness: dropping an undecodable marker line from between the frames
leaves the reconstruction unchanged, and the line contributes nothing. -/
theorem c4_witness :
    parse_bytearray (.stream (some fdC4) ([lineC4good] ++ lineC4bad :: [])) =
        parse_bytearray (.stream (some fdC4) ([lineC4good] ++ [])) ∧
      lineIncrement "content" lineC4bad = "" ∧
      lineIncrement "tool_calls" lineC4bad = "" ∧
      frameUsage "content" lineC4bad = none ∧
      frameUsage "tool_calls" lineC4bad = none :=
  c4_soft_frame_skipped fdC4 [lineC4good] [] lineC4bad
    (Or.inr ⟨⟨rfl, Or.inl rfl⟩, ⟨rfl, Or.inl rfl⟩⟩)

/-- C4 counterexample: the line `data: {"choices": []}` is valid JSON that
lacks the expected `choices[0]` entry, yet it raises an uncaught
`IndexError` and aborts the whole reconstruction instead of contributing a
zero-length increment. -/
theorem c4_counterexample :
    lineC4.hasMarker = true ∧
      lineC4.json = some (.obj [("choices", .arr [])]) ∧
      innerContent lineC4.json "content" = .error .indexError ∧
      parse_bytearray (.stream (some fdC4) [lineC4]) = .error .indexError :=
  ⟨rfl, rfl, rfl, rfl⟩

/-- C5 (amended): a response buffer whose first frame is not valid JSON
fails with the decode error (for both shapes), producing no `ResponseInfo`
at all — though this is not the only hard failure of reconstruction (see
the counterexample). -/
theorem c5_first_frame_hard_error :
    (∀ rest : List SSELine,
        parse_bytearray (.stream none rest) = .error .jsonDecode) ∧
      parse_bytearray (.single none) = .error .jsonDecode :=
  ⟨fun _ => rfl, rfl⟩

/-- C5 counterexample: a first frame that is valid JSON (`{}`) but lacks the
required keys also hard-fails — with `KeyError`, not the decode error — so
an undecodable first frame is not the only hard failure. -/
theorem c5_counterexample :
    parse_bytearray (.single (some (.obj []))) = .error .keyError := rfl

/-- C6: the discriminator flag indicates which payload the single
`target_info[role]` slot holds — when it signals tool-calls the slot holds a
truthy (nonempty) tool-call value and, for streaming buffers, a nonempty
array rather than text; when it signals content the slot of a streaming
buffer holds a string.  The record stores exactly one payload field, so the
two payloads are mutually exclusive by construction. -/
theorem c6_discriminator (buf : RespBuffer) (info : ResponseInfo)
    (h : parse_bytearray buf = .ok info) :
    (info.is_tool_calls = true → truthy info.roleVal = true) ∧
      (∀ fd rest, buf = .stream (some fd) rest → info.is_tool_calls = false →
        ∃ s, info.roleVal = .str s) ∧
      (∀ fd rest, buf = .stream (some fd) rest → info.is_tool_calls = true →
        ∃ t ts, info.roleVal = .arr (t :: ts)) := by
  cases buf with
  | single dec =>
    cases dec with
    | none => simp [parse_bytearray] at h
    | some doc =>
      obtain ⟨ch, c0, msg, hch, hc0, hmsg, hfin⟩ := parse_single_inv h
      obtain ⟨cr, idv, mdl, rl, ct, tc, h1, h2, h3, h4, h5, h6, h7,
        h8, h9, h10, h11, hflag, hbr⟩ := finishParse_ok_inv hfin
      rcases hbr with ⟨_, husage, hrole⟩ | ⟨hts, _⟩
      · refine ⟨?_, ?_, ?_⟩
        · intro hit
          rw [hflag] at hit
          simp [hrole, hit]
        · intro fd rest heq
          exact absurd heq (by simp)
        · intro fd rest heq
          exact absurd heq (by simp)
      · exact absurd hts (by simp)
  | stream dec rest' =>
    cases dec with
    | none => simp [parse_bytearray] at h
    | some fd' =>
      obtain ⟨ch, c0, msg, hch, hc0, hmsg, hfin⟩ := parse_stream_inv h
      obtain ⟨cr, idv, mdl, rl, ct, tc, h1, h2, h3, h4, h5, h6, h7,
        h8, h9, h10, h11, hflag, hbr⟩ := finishParse_ok_inv hfin
      rcases hbr with ⟨hfalse, _⟩ | ⟨_, sc, us, hsl, hus, hcase⟩
      · exact absurd hfalse (by simp)
      · rcases hcase with ⟨htr, tc2, hass, hrole⟩ | ⟨htr, hrole⟩
        · obtain ⟨t0kvs, ts, fnkvs, htcEq, hlk, htc2⟩ := assign_inv hass
          refine ⟨?_, ?_, ?_⟩
          · intro _
            rw [hrole, htc2]
            simp [truthy]
          · intro fd rest heq hfalse2
            rw [hflag, htr] at hfalse2
            exact absurd hfalse2 (by simp)
          · intro fd rest heq _
            rw [hrole, htc2]
            exact ⟨_, ts, rfl⟩
        · refine ⟨?_, ?_, ?_⟩
          · intro hit
            rw [hflag, htr] at hit
            exact absurd hit (by simp)
          · intro fd rest heq _
            exact ⟨sc, hrole⟩
          · intro fd rest heq hit
            rw [hflag, htr] at hit
            exact absurd hit (by simp)

/-- C6 witness: the tool-call streaming example satisfies the discriminator
invariant. -/
theorem c6_witness :
    (infoC6.is_tool_calls = true → truthy infoC6.roleVal = true) ∧
      (∀ fd rest, bufC6 = .stream (some fd) rest → infoC6.is_tool_calls = false →
        ∃ s, infoC6.roleVal = .str s) ∧
      (∀ fd rest, bufC6 = .stream (some fd) rest → infoC6.is_tool_calls = true →
        ∃ t ts, infoC6.roleVal = .arr (t :: ts)) :=
  c6_discriminator bufC6 infoC6 rfl

/-- C7 (amended): for a streaming buffer whose discriminator is tool-calls,
the result keeps the header frame's tool-call list — whose first entry's
`function.arguments` is replaced by the concatenation, in arrival order, of
the per-line argument fragments — and the flag signals tool-calls.  The list
is one-element exactly when the header's list is; further entries are kept
unchanged (see the counterexample). -/
theorem c7_tool_args_concat (fd : JsonV) (rest : List SSELine)
    (info : ResponseInfo)
    (h : parse_bytearray (.stream (some fd) rest) = .ok info)
    (hc : info.is_tool_calls = true) :
    ∃ ch c0 msg t0kvs ts fnkvs,
      getKey fd "choices" = .ok ch ∧ getIdx ch 0 = .ok c0 ∧
        getKey c0 "delta" = .ok msg ∧
        dictGet msg "tool_calls" = .ok (.arr (.obj t0kvs :: ts)) ∧
        List.lookup "function" t0kvs = some (.obj fnkvs) ∧
        ∃ t0new fnew,
          info.roleVal = .arr (t0new :: ts) ∧
            getKey t0new "function" = .ok fnew ∧
            getKey fnew "arguments" =
              .ok (.str (concatList (rest.map (lineIncrement "tool_calls")))) := by
  obtain ⟨ch, c0, msg, hch, hc0, hmsg, hfin⟩ := parse_stream_inv h
  obtain ⟨cr, idv, mdl, rl, ct, tc, h1, h2, h3, h4, h5, h6, h7,
    h8, h9, h10, h11, hflag, hbr⟩ := finishParse_ok_inv hfin
  rcases hbr with ⟨hfalse, _⟩ | ⟨_, sc, us, hsl, hus, hcase⟩
  · exact absurd hfalse (by simp)
  · have htr : truthy tc = true := by rw [← hflag, hc]
    rcases hcase with ⟨_, tc2, hass, hrole⟩ | ⟨htrf, _⟩
    · rw [htr] at hsl
      simp only [if_true] at hsl
      obtain ⟨hsc, husage⟩ := streamLoop_ok rest "tool_calls" "" none sc us hsl
      obtain ⟨t0kvs, ts, fnkvs, htcEq, hlk, htc2⟩ := assign_inv hass
      rw [htcEq] at h6
      have hscv : sc = concatList (rest.map (lineIncrement "tool_calls")) := by
        rw [hsc]
        simp
      refine ⟨ch, c0, msg, t0kvs, ts, fnkvs, hch, hc0, hmsg, h6, hlk,
        .obj (updateAssoc t0kvs "function"
          (.obj (updateAssoc fnkvs "arguments" (.str sc)))),
        .obj (updateAssoc fnkvs "arguments" (.str sc)), ?_, ?_, ?_⟩
      · rw [hrole, htc2]
      · simp [getKey, lookup_updateAssoc]
      · simp [getKey, lookup_updateAssoc, hscv]
    · rw [htr] at htrf
      exact absurd htrf (by simp)

/-- C7 witness: the one-tool-call header with fragments `"ab"`, an
undecodable line, and `"cd"` yields arguments `"abcd"` in a one-element
list. -/
theorem c7_witness :
    ∃ ch c0 msg t0kvs ts fnkvs,
      getKey fdC7 "choices" = .ok ch ∧ getIdx ch 0 = .ok c0 ∧
        getKey c0 "delta" = .ok msg ∧
        dictGet msg "tool_calls" = .ok (.arr (.obj t0kvs :: ts)) ∧
        List.lookup "function" t0kvs = some (.obj fnkvs) ∧
        ∃ t0new fnew,
          infoC7w.roleVal = .arr (t0new :: ts) ∧
            getKey t0new "function" = .ok fnew ∧
            getKey fnew "arguments" =
              .ok (.str (concatList (restC7.map (lineIncrement "tool_calls")))) :=
  c7_tool_args_concat fdC7 restC7 infoC7w rfl rfl

/-- C7 counterexample: with a header carrying two tool calls, the final
tool-call list has two entries, refuting the claimed one-element list. -/
theorem c7_counterexample :
    parse_bytearray (.stream (some fdC7x) [lineC7x]) = .ok infoC7x ∧
      infoC7x.is_tool_calls = true ∧
      infoC7x.roleVal = .arr [
        .obj [("function", .obj [("arguments", .str "z")])],
        .obj [("function", .obj [("arguments", .str "q")])]] ∧
      (match infoC7x.roleVal with
        | .arr xs => xs.length
        | _ => 0) = 2 :=
  ⟨rfl, rfl, rfl, rfl⟩

/-- C8: the normalizer removes exactly the caching directive from the body
(recording it in the `RequestInfo`, with the configured default when it is
absent); the residual body is the input body with only that key removed —
the lookup of every other key, recognized or not, is unchanged. -/
theorem c8_caching_removed (kvs : List (String × JsonV)) (ipRaw : Option String)
    (uid dt : String) (dflt : JsonV) (info : RequestInfo) (res : JsonV)
    (h : parse_payload (.obj kvs) ipRaw uid dt dflt = .ok (info, res)) :
    res = .obj (removeKey kvs "caching") ∧
      info.caching = getD kvs "caching" dflt ∧
      List.lookup "caching" (removeKey kvs "caching") = none ∧
      (∀ k, k ≠ "caching" →
        List.lookup k (removeKey kvs "caching") = List.lookup k kvs) := by
  simp only [parse_payload] at h
  cases hm : List.lookup "messages" kvs with
  | none => rw [hm] at h; simp at h
  | some msgs =>
  rw [hm] at h
  simp only [] at h
  cases hmd : List.lookup "model" kvs with
  | none => rw [hmd] at h; simp at h
  | some mdl =>
  rw [hmd] at h
  simp only [Except.ok.injEq, Prod.mk.injEq] at h
  obtain ⟨hinfo, hres⟩ := h
  refine ⟨hres.symm, ?_, lookup_removeKey_self kvs "caching",
    fun k hk => lookup_removeKey_ne kvs "caching" k hk⟩
  rw [← hinfo]

/-- C8 witness: a body with a caching directive and an unrecognized field
keeps the unrecognized field and loses only the caching key. -/
theorem c8_witness :
    resC8 = .obj (removeKey kvsC8 "caching") ∧
      infoC8.caching = getD kvsC8 "caching" (.bool false) ∧
      List.lookup "caching" (removeKey kvsC8 "caching") = none ∧
      (∀ k, k ≠ "caching" →
        List.lookup k (removeKey kvsC8 "caching") = List.lookup k kvsC8) :=
  c8_caching_removed kvsC8 (some "1.2.3.4") "uid1" "dt" (.bool false)
    infoC8 resC8 rfl

/-- C9: a body with only `messages` and `model` normalizes successfully, and
every optional field of the result equals its documented default (stream
false, n 1, temperature 1, top_p 1, both penalties 0, the remaining
generation parameters null, and the caching directive the configured
default). -/
theorem c9_optional_defaults (m md : JsonV) (ipRaw : Option String)
    (uid dt : String) (dflt : JsonV) :
    parse_payload (.obj [("messages", m), ("model", md)]) ipRaw uid dt dflt =
      .ok (⟨m, md, .bool false, .null, .null, .num 1, .num 1, .num 1, .null,
        .num 0, .num 0, .null, .null, .null, .null, .null, ipRaw.getD "", uid,
        dflt, dt⟩,
        .obj [("messages", m), ("model", md)]) := rfl

/-- C10: a content-mode line that decodes, carries `delta.content` and
`finish_reason == "stop"`, but has no `usage` key, contributes nothing at
all — the `KeyError` on `usage` discards the content increment along with
the missing usage, exactly like a malformed line. -/
theorem c10_stop_frame_without_usage (j ch c0 d dc : JsonV)
    (hch : getKey j "choices" = .ok ch) (hc0 : getIdx ch 0 = .ok c0)
    (hd : getKey c0 "delta" = .ok d) (hdc : getKey d "content" = .ok dc)
    (hfr : getKey c0 "finish_reason" = .ok (.str "stop"))
    (hu : getKey j "usage" = .error .keyError) :
    parse_one_line_content (some j) "content" = .ok (.str "", .null) ∧
      frameUsage "content" ⟨true, some j⟩ = none ∧
      lineIncrement "content" ⟨true, some j⟩ = "" := by
  have hin : innerContent (some j) "content" = .error .keyError := by
    rw [innerContent_content]
    simp only []
    rw [hch]
    simp only []
    rw [hc0]
    simp only []
    rw [hd]
    simp only []
    rw [hdc]
    simp only []
    rw [hfr]
    simp only []
    have hst : isStop (.str "stop") = true := rfl
    rw [hst]
    simp only [if_true]
    rw [hu]
  have hp : parse_one_line_content (some j) "content" = .ok (.str "", .null) := by
    simp [parse_one_line_content, hin]
  refine ⟨hp, ?_, ?_⟩
  · simp [frameUsage, hp, truthy]
  · simp [lineIncrement, hp]

/-- C10 witness: the concrete frame `jC10` is discarded whole. -/
theorem c10_witness :
    parse_one_line_content (some jC10) "content" = .ok (.str "", .null) ∧
      frameUsage "content" ⟨true, some jC10⟩ = none ∧
      lineIncrement "content" ⟨true, some jC10⟩ = "" :=
  c10_stop_frame_without_usage jC10
    (.arr [.obj [("delta", .obj [("content", .str "tail")]),
      ("finish_reason", .str "stop")]])
    (.obj [("delta", .obj [("content", .str "tail")]),
      ("finish_reason", .str "stop")])
    (.obj [("content", .str "tail")]) (.str "tail")
    rfl rfl rfl rfl rfl rfl
